import Mathlib

/-!
Verification of the CueAI Live Cue & Playback Director (`game.js` and the
Node backend) against its natural-language specification.

The JavaScript source is shallowly embedded: JS strings are modelled as
`List Char` (called `Word` below), JS numbers used as timestamps and
counters as `Nat`, JS numbers used as volumes/levels as `ℚ` (exact
rationals standing in for the float arithmetic, which none of the verified
claims depend on for rounding), JS `Map`s as association lists where
`insert` conses in front (matching `Map.set` + first-match lookup
semantics for the keys in question), and the mutable fields of the
`CueAI` class as explicit record states threaded through the functions.
Asynchronous results from the environment (whether `playAudio` succeeded,
what a remote search returned, `Date.now()` samples) are passed in as
extra parameters.
-/

namespace CueAI

/-- A JS string, modelled as its list of characters. -/
abbrev Word := List Char

/-- The apostrophe character (U+0027), written via its code point. -/
def apos : Char := Char.ofNat 39

/-- Drop the last `n` characters of a word (used to strip a matched suffix). -/
def dropLastN (s : Word) (n : Nat) : Word := s.take (s.length - n)

/-- Possessive stripping from `eqLoose`'s
`s.replace(/'(s)?$/, '')`: a trailing `'s` (the leftmost match) or a
trailing `'` is removed. -/
def stripPossessive (s : Word) : Word :=
  if [apos, 's'].isSuffixOf s then dropLastN s 2
  else if [apos].isSuffixOf s then dropLastN s 1
  else s

/-- The suffix-stripping helper `strip` inside `eqLoose`:
`r.replace(/(ing|ed|ly|er|est)$/,'')` followed by `r.replace(/(es|s)$/,'')`.
For each regex, at most one alternative can occur as a suffix at the
leftmost matching position, so the replace removes exactly that suffix. -/
def stripSuffixes (s : Word) : Word :=
  let r :=
    if "ing".data.isSuffixOf s then dropLastN s 3
    else if "ed".data.isSuffixOf s then dropLastN s 2
    else if "ly".data.isSuffixOf s then dropLastN s 2
    else if "er".data.isSuffixOf s then dropLastN s 2
    else if "est".data.isSuffixOf s then dropLastN s 3
    else s
  if "es".data.isSuffixOf r then dropLastN r 2
  else if "s".data.isSuffixOf r then dropLastN r 1
  else r

/-- The static irregular plural table inside `eqLoose`
(`{ wolves:'wolf', children:'child', ... }`), as a partial lookup. -/
def irregular (w : Word) : Option Word :=
  if w = "wolves".data then some "wolf".data
  else if w = "children".data then some "child".data
  else if w = "men".data then some "man".data
  else if w = "women".data then some "woman".data
  else if w = "geese".data then some "goose".data
  else if w = "mice".data then some "mouse".data
  else if w = "feet".data then some "foot".data
  else if w = "teeth".data then some "tooth".data
  else none

/-- Model of `eqLoose(a, b)` from `game.js`: loose word equality used by the Story
Aligner.  `if (!a || !b) return a === b` (the only falsy string is the
empty one); identity; shared stem after possessive and suffix stripping
(both stems non-empty); or an irregular plural/singular pair in either
direction. -/
def eqLoose (a b : Word) : Bool :=
  if a = [] ∨ b = [] then a = b
  else if a = b then true
  else if stripSuffixes (stripPossessive a) ≠ [] ∧ stripSuffixes (stripPossessive b) ≠ [] ∧
      stripSuffixes (stripPossessive a) = stripSuffixes (stripPossessive b) then true
  else if irregular a = some b then true
  else if irregular b = some a then true
  else false

/-- The claim `C10` theorem, first half helper: `eqLoose` is reflexive. -/
theorem eqLoose_refl_aux (w : Word) : eqLoose w w = true := by
  unfold eqLoose
  by_cases h : w = []
  · simp [h]
  · simp [h]

/-- Symmetry helper: the stem-comparison condition is symmetric. -/
theorem eqLoose_symm_aux (a b : Word) : eqLoose a b = eqLoose b a := by
  unfold eqLoose
  by_cases h1 : a = [] ∨ b = []
  · have h1' : b = [] ∨ a = [] := h1.symm
    rw [if_pos h1, if_pos h1']
    exact decide_eq_decide.mpr ⟨fun h => h.symm, fun h => h.symm⟩
  · have h1' : ¬ (b = [] ∨ a = []) := fun h => h1 h.symm
    rw [if_neg h1, if_neg h1']
    by_cases hab : a = b
    · have hba : b = a := hab.symm
      rw [if_pos hab, if_pos hba]
    · have hba : ¬ b = a := fun h => hab h.symm
      rw [if_neg hab, if_neg hba]
      by_cases hst : stripSuffixes (stripPossessive a) ≠ [] ∧
          stripSuffixes (stripPossessive b) ≠ [] ∧
          stripSuffixes (stripPossessive a) = stripSuffixes (stripPossessive b)
      · have hst' : stripSuffixes (stripPossessive b) ≠ [] ∧
            stripSuffixes (stripPossessive a) ≠ [] ∧
            stripSuffixes (stripPossessive b) = stripSuffixes (stripPossessive a) :=
          ⟨hst.2.1, hst.1, hst.2.2.symm⟩
        rw [if_pos hst, if_pos hst']
      · have hst' : ¬ (stripSuffixes (stripPossessive b) ≠ [] ∧
            stripSuffixes (stripPossessive a) ≠ [] ∧
            stripSuffixes (stripPossessive b) = stripSuffixes (stripPossessive a)) := by
          intro h
          exact hst ⟨h.2.1, h.1, h.2.2.symm⟩
        rw [if_neg hst, if_neg hst']
        by_cases hia : irregular a = some b
        · by_cases hib : irregular b = some a
          · rw [if_pos hia, if_pos hib]
          · rw [if_pos hia, if_neg hib, if_pos hia]
        · by_cases hib : irregular b = some a
          · rw [if_neg hia, if_pos hib, if_pos hib]
          · rw [if_neg hia, if_neg hib, if_neg hib, if_neg hia]

/-- C10: the Story Aligner's loose word-equality relation `eqLoose` is
symmetric (`eqLoose a b = eqLoose b a` for all words) and reflexive
(`eqLoose w w = true` for every word): identity, suffix/possessive
stripping and the irregular-plural table all act symmetrically. -/
theorem eqLoose_symm_refl :
    (∀ a b : Word, eqLoose a b = eqLoose b a) ∧ (∀ w : Word, eqLoose w w = true) :=
  ⟨eqLoose_symm_aux, eqLoose_refl_aux⟩

/-! ## Story Aligner (`advanceStoryWithTranscript`, `attemptStoryRecovery`) -/

/-- A character kept by the spoken-word splitter: `advanceStoryWithTranscript`
lowercases the text and replaces every character outside `[a-z0-9'\s]` by a
space before splitting on whitespace, so the word characters are exactly
lowercase letters, digits and the apostrophe. -/
def isSpokenChar (c : Char) : Bool :=
  (decide (Char.ofNat 97 ≤ c) && decide (c ≤ Char.ofNat 122)) ||
  (decide (Char.ofNat 48 ≤ c) && decide (c ≤ Char.ofNat 57)) ||
  c = apos

/-- Chunk a lowercased character stream into maximal runs of spoken-word
characters; separator runs (whitespace and replaced punctuation) are
dropped, matching `.split(/\s+/).filter(Boolean)`. -/
def splitSpokenAux : List Char → Word → List Word
  | [], acc => if acc = [] then [] else [acc.reverse]
  | c :: cs, acc =>
    if isSpokenChar c then splitSpokenAux cs (c :: acc)
    else if acc = [] then splitSpokenAux cs []
    else acc.reverse :: splitSpokenAux cs []

/-- The spoken-word list extracted from a transcript fragment:
`text.toLowerCase().replace(/[^a-z0-9'\s]+/g, ' ').split(/\s+/).filter(Boolean)`. -/
def toSpoken (text : List Char) : List Word :=
  splitSpokenAux (text.map Char.toLower) []

/-- The stop-word test of the strict sequential scan:
`/^(the|and|a|an|to|of|in|on|at|with)$/`. -/
def isScanStopWord (w : Word) : Bool :=
  w = "the".data || w = "and".data || w = "a".data || w = "an".data ||
  w = "to".data || w = "of".data || w = "in".data || w = "on".data ||
  w = "at".data || w = "with".data

/-- The (larger) stop-word test of the recovery scan:
`/^(the|and|a|an|to|of|in|on|at|with|it|is|was)$/`. -/
def isRecoveryStopWord (w : Word) : Bool :=
  isScanStopWord w || w = "it".data || w = "is".data || w = "was".data

/-- The loop body of
`while (i < this.storyNorm.length && this.storyNorm[i] === '') i++;`,
walking the tokens from position `i` (given as the remaining suffix of the
token list, so that the recursion is structural). -/
def skipEmptiesAux : List Word → Nat → Nat
  | [], i => i
  | t :: rest, i => if t = [] then skipEmptiesAux rest (i + 1) else i

/-- Model of `while (i < storyNorm.length && storyNorm[i] === '') i++;` —
advance the cursor past zero-length (separator) tokens. -/
def skipEmpties (norm : List Word) (i : Nat) : Nat :=
  skipEmptiesAux (norm.drop i) i

/-- The strict sequential matching loop of `advanceStoryWithTranscript`:
for each spoken word, skip empty tokens, stop at the end of the story, on a
loose match advance cursor and progress count, on a mismatch skip a
stop-word token (consuming the spoken word), otherwise keep the cursor.
Returns the final `(i, progressed)` pair.  (The `maybeTriggerStorySfx`
side call made on each match feeds the generic SFX path modelled
separately; it does not touch the cursor.) -/
def seqScan (norm : List Word) : List Word → Nat → Nat → Nat × Nat
  | [], i, prog => (i, prog)
  | w :: ws, i, prog =>
    let j := skipEmpties norm i
    if j ≥ norm.length then (j, prog)
    else if eqLoose (norm.getD j []) w then seqScan norm ws (j + 1) (prog + 1)
    else if isScanStopWord (norm.getD j []) then seqScan norm ws (j + 1) prog
    else seqScan norm ws j prog

/-- The inner loop of `attemptStoryRecovery`: starting at window offset `k`
with spoken index `j`, count loosely-matching words of a near-contiguous
run (empty tokens always skipped, recovery stop-words skipped on mismatch,
any other mismatch ends the run).  Returns the final `matched` count. -/
def recMatchFuel (window spoken : List Word) : Nat → Nat → Nat → Nat → Nat
  | 0, _, _, matched => matched
  | fuel + 1, k, j, matched =>
    if j < spoken.length then
      if window.getD k [] = [] then recMatchFuel window spoken fuel (k + 1) j matched
      else if eqLoose (window.getD k []) (spoken.getD j []) then
        recMatchFuel window spoken fuel (k + 1) (j + 1) (matched + 1)
      else if isRecoveryStopWord (window.getD k []) then
        recMatchFuel window spoken fuel (k + 1) j matched
      else matched
    else matched

/-- Entry point for the inner recovery loop: the `k < window.length` bound
of the `for` loop is supplied as the structural fuel `window.length - k`,
which decrements exactly once per `k++`. -/
def recMatchCount (window spoken : List Word) (k j matched : Nat) : Nat :=
  recMatchFuel window spoken (window.length - k) k j matched

/-- The outer loop of `attemptStoryRecovery`:
`for (let startIdx = 0; startIdx < window.length - minMatch; startIdx++)`
returning the first offset whose run reaches `minMatch` matches.  (With JS
number arithmetic the bound `window.length - minMatch` is never negative
when the loop runs, so truncated `Nat` subtraction is faithful.) -/
def recoverSearchFuel (window spoken : List Word) (minMatch : Nat) : Nat → Nat → Option Nat
  | _, 0 => none
  | startIdx, fuel + 1 =>
    if recMatchCount window spoken startIdx 0 0 ≥ minMatch then some startIdx
    else recoverSearchFuel window spoken minMatch (startIdx + 1) fuel

/-- Entry point for the outer recovery loop: the remaining iteration count
`window.length - minMatch - startIdx` of the `for` loop is supplied as
structural fuel (with JS number arithmetic the bound is never negative
when the loop runs, so truncated `Nat` subtraction is faithful). -/
def recoverSearch (window spoken : List Word) (minMatch startIdx : Nat) : Option Nat :=
  recoverSearchFuel window spoken minMatch startIdx (window.length - minMatch - startIdx)

/-- Model of `attemptStoryRecovery(spoken)` from `game.js`: scan a 40-token lookahead
window (`storyNorm.slice(storyIndex, storyIndex + 40)`) for the first offset
where at least `minMatch = min(3, spoken.length)` recent spoken words match a
near-contiguous token run; on success return the absolute story index of
that offset, otherwise return the unchanged `storyIndex`. -/
def attemptStoryRecovery (norm : List Word) (storyIndex : Nat) (spoken : List Word) : Nat :=
  let window := (norm.drop storyIndex).take 40
  let minMatch := min 3 spoken.length
  match recoverSearch window spoken minMatch 0 with
  | some startIdx => storyIndex + startIdx
  | none => storyIndex

/-- The Story Aligner's mutable fields on the `CueAI` object:
`storyActive`, `storyNorm` (normalized tokens, `''` for separators),
`storyIndex` (the cursor) and `_recentSpoken` (sliding window of the last
30 spoken words, kept for recovery context). -/
structure StoryState where
  storyActive : Bool
  storyNorm : List Word
  storyIndex : Nat
  recentSpoken : List Word
  deriving Repr, DecidableEq

/-- Model of `advanceStoryWithTranscript(text)` from `game.js`: bail out when no
narrative is open or the text is empty; split the text into spoken words;
append them to the 30-word sliding window; run the strict sequential scan;
if it made no progress and at least 3 words were spoken, attempt lookahead
recovery; finally commit the new cursor only when it moved forward.
(The DOM-highlight and prefetch calls made on commit do not touch this
state.) -/
def advanceStoryWithTranscript (st : StoryState) (text : List Char) : StoryState :=
  if ¬ st.storyActive ∨ text = [] then st
  else
    let spoken := toSpoken text
    if spoken = [] then st
    else
      let recent0 := st.recentSpoken ++ spoken
      let recent := if recent0.length > 30 then recent0.drop (recent0.length - 30) else recent0
      let scan := seqScan st.storyNorm spoken st.storyIndex 0
      let ir : Nat × Nat :=
        if scan.2 = 0 ∧ spoken.length ≥ 3 then
          let recovered := attemptStoryRecovery st.storyNorm st.storyIndex spoken
          if recovered > st.storyIndex then (recovered, recovered - st.storyIndex) else scan
        else scan
      if ir.1 > st.storyIndex then
        { st with storyIndex := ir.1, recentSpoken := recent }
      else
        { st with recentSpoken := recent }

/-- C1: for every open narrative and every transcript-fragment call to
`advanceStoryWithTranscript` (final or interim, any word contents), the
Story Aligner's cursor `storyIndex` is monotonically non-decreasing —
its value after the call is `≥` its value before, including when recovery
via `attemptStoryRecovery` is taken; hence it is non-decreasing along every
sequence of such calls. -/
theorem advanceStory_cursor_monotone (st : StoryState) (text : List Char) :
    st.storyIndex ≤ (advanceStoryWithTranscript st text).storyIndex := by
  unfold advanceStoryWithTranscript
  by_cases h0 : ¬ st.storyActive ∨ text = []
  · rw [if_pos h0]
  · rw [if_neg h0]
    by_cases h1 : toSpoken text = []
    · rw [if_pos h1]
    · rw [if_neg h1]
      set ir : Nat × Nat :=
        if (seqScan st.storyNorm (toSpoken text) st.storyIndex 0).2 = 0 ∧
            (toSpoken text).length ≥ 3 then
          if attemptStoryRecovery st.storyNorm st.storyIndex (toSpoken text) > st.storyIndex then
            (attemptStoryRecovery st.storyNorm st.storyIndex (toSpoken text),
             attemptStoryRecovery st.storyNorm st.storyIndex (toSpoken text) - st.storyIndex)
          else seqScan st.storyNorm (toSpoken text) st.storyIndex 0
        else seqScan st.storyNorm (toSpoken text) st.storyIndex 0 with hir
      by_cases h2 : ir.1 > st.storyIndex
      · rw [if_pos h2]
        exact Nat.le_of_lt h2
      · rw [if_neg h2]

/-! ### No-loose-match lemmas for the aligner (claim C3) -/

/-- The empty-token walk never moves the cursor backwards. -/
theorem skipEmptiesAux_ge : ∀ (l : List Word) (i : Nat), i ≤ skipEmptiesAux l i
  | [], i => Nat.le_refl i
  | t :: rest, i => by
      unfold skipEmptiesAux
      by_cases h : t = []
      · rw [if_pos h]
        exact Nat.le_trans (Nat.le_succ i) (skipEmptiesAux_ge rest (i + 1))
      · rw [if_neg h]

/-- The cursor after `skipEmpties` is at or past its starting position. -/
theorem skipEmpties_ge (norm : List Word) (i : Nat) : i ≤ skipEmpties norm i :=
  skipEmptiesAux_ge (norm.drop i) i

/-- Positions passed over by the empty-token walk hold empty tokens,
stated relative to the remaining-suffix view. -/
theorem skipEmptiesAux_passes :
    ∀ (l : List Word) (i k : Nat), i ≤ k → k < skipEmptiesAux l i → l.getD (k - i) [] = []
  | [], i, k, _, h2 => by
      unfold skipEmptiesAux at h2
      omega
  | t :: rest, i, k, h1, h2 => by
      unfold skipEmptiesAux at h2
      by_cases h : t = []
      · rw [if_pos h] at h2
        rcases Nat.eq_or_lt_of_le h1 with rfl | hlt
        · simpa [Nat.sub_self] using h
        · have ih := skipEmptiesAux_passes rest (i + 1) k hlt h2
          have hk : k - i = (k - (i + 1)) + 1 := by omega
          rw [hk]
          simpa using ih
      · rw [if_neg h] at h2
        omega

/-- Dropping then indexing equals indexing at the shifted position. -/
theorem getD_drop_eq (l : List Word) : ∀ (n m : Nat), (l.drop n).getD m [] = l.getD (n + m) [] := by
  induction l with
  | nil => intro n m; simp
  | cons a l ih =>
      intro n m
      cases n with
      | zero => simp
      | succ n =>
          have : n + 1 + m = (n + m) + 1 := by omega
          rw [List.drop_succ_cons, ih n m, this, List.getD_cons_succ]

/-- Every token position passed over by `skipEmpties` holds an empty token. -/
theorem skipEmpties_passes_empties (norm : List Word) (i k : Nat)
    (h1 : i ≤ k) (h2 : k < skipEmpties norm i) : norm.getD k [] = [] := by
  have haux := skipEmptiesAux_passes (norm.drop i) i k h1 h2
  rw [getD_drop_eq] at haux
  have : i + (k - i) = k := by omega
  rwa [this] at haux

/-- If no story token loosely matches any word of the batch, the strict
sequential scan makes zero progress and every position it passes holds an
empty token or a scan stop-word. -/
theorem seqScan_no_match (norm : List Word) :
    ∀ (ws : List Word) (i p : Nat),
      (∀ k w, w ∈ ws → eqLoose (norm.getD k []) w = false) →
      (seqScan norm ws i p).2 = p ∧
      ∀ k, i ≤ k → k < (seqScan norm ws i p).1 →
        (norm.getD k [] = [] ∨ isScanStopWord (norm.getD k []) = true)
  | [], i, p, _ => by
      refine ⟨rfl, fun k hk1 hk2 => ?_⟩
      simp only [seqScan] at hk2
      omega
  | w :: ws, i, p, H => by
      have Hw : eqLoose (norm.getD (skipEmpties norm i) []) w = false :=
        H (skipEmpties norm i) w (List.mem_cons_self w ws)
      have Hws : ∀ k w', w' ∈ ws → eqLoose (norm.getD k []) w' = false :=
        fun k w' hw' => H k w' (List.mem_cons_of_mem w hw')
      unfold seqScan
      by_cases hend : skipEmpties norm i ≥ norm.length
      · rw [if_pos hend]
        refine ⟨rfl, fun k hk1 hk2 => ?_⟩
        exact Or.inl (skipEmpties_passes_empties norm i k hk1 hk2)
      · rw [if_neg hend, Hw]
        simp only [Bool.false_eq_true, if_false]
        by_cases hstop : isScanStopWord (norm.getD (skipEmpties norm i) []) = true
        · rw [if_pos hstop]
          obtain ⟨ih1, ih2⟩ := seqScan_no_match norm ws (skipEmpties norm i + 1) p Hws
          refine ⟨ih1, fun k hk1 hk2 => ?_⟩
          by_cases hk : k < skipEmpties norm i
          · exact Or.inl (skipEmpties_passes_empties norm i k hk1 hk)
          · by_cases hk' : k = skipEmpties norm i
            · rw [hk']
              exact Or.inr hstop
            · exact ih2 k (by omega) hk2
        · rw [if_neg hstop]
          obtain ⟨ih1, ih2⟩ := seqScan_no_match norm ws (skipEmpties norm i) p Hws
          refine ⟨ih1, fun k hk1 hk2 => ?_⟩
          by_cases hk : k < skipEmpties norm i
          · exact Or.inl (skipEmpties_passes_empties norm i k hk1 hk)
          · exact ih2 k (by omega) hk2

/-- If no window token loosely matches any word of the batch, the recovery
run counter never counts a match. -/
theorem recMatchFuel_no_match (window spoken : List Word)
    (H : ∀ k w, w ∈ spoken → eqLoose (window.getD k []) w = false)
    (Hlen : ∀ j, j < spoken.length → spoken.getD j [] ∈ spoken) :
    ∀ (fuel k j m : Nat), recMatchFuel window spoken fuel k j m = m
  | 0, _, _, _ => rfl
  | fuel + 1, k, j, m => by
      unfold recMatchFuel
      by_cases hj : j < spoken.length
      · rw [if_pos hj]
        by_cases he : window.getD k [] = []
        · rw [if_pos he]
          exact recMatchFuel_no_match window spoken H Hlen fuel (k + 1) j m
        · rw [if_neg he]
          rw [H k (spoken.getD j []) (Hlen j hj)]
          simp only [Bool.false_eq_true, if_false]
          by_cases hstop : isRecoveryStopWord (window.getD k []) = true
          · rw [if_pos hstop]
            exact recMatchFuel_no_match window spoken H Hlen fuel (k + 1) j m
          · rw [if_neg hstop]
      · rw [if_neg hj]

/-- Under the no-match hypothesis the recovery run counter is constant. -/
theorem recMatchCount_no_match (window spoken : List Word)
    (H : ∀ k w, w ∈ spoken → eqLoose (window.getD k []) w = false)
    (Hlen : ∀ j, j < spoken.length → spoken.getD j [] ∈ spoken)
    (k j m : Nat) : recMatchCount window spoken k j m = m :=
  recMatchFuel_no_match window spoken H Hlen _ k j m

/-- Under the no-match hypothesis the recovery search fails at every start
offset (for any positive required match count). -/
theorem recoverSearchFuel_no_match (window spoken : List Word) (minMatch : Nat)
    (hmin : 0 < minMatch)
    (H : ∀ k w, w ∈ spoken → eqLoose (window.getD k []) w = false)
    (Hlen : ∀ j, j < spoken.length → spoken.getD j [] ∈ spoken) :
    ∀ (startIdx fuel : Nat), recoverSearchFuel window spoken minMatch startIdx fuel = none
  | _, 0 => rfl
  | startIdx, fuel + 1 => by
      unfold recoverSearchFuel
      rw [recMatchCount_no_match window spoken H Hlen startIdx 0 0]
      rw [if_neg (by omega)]
      exact recoverSearchFuel_no_match window spoken minMatch hmin H Hlen (startIdx + 1) fuel

/-- Under the no-match hypothesis the recovery search finds no offset. -/
theorem recoverSearch_no_match (window spoken : List Word) (minMatch : Nat)
    (hmin : 0 < minMatch)
    (H : ∀ k w, w ∈ spoken → eqLoose (window.getD k []) w = false)
    (Hlen : ∀ j, j < spoken.length → spoken.getD j [] ∈ spoken)
    (startIdx : Nat) : recoverSearch window spoken minMatch startIdx = none :=
  recoverSearchFuel_no_match window spoken minMatch hmin H Hlen startIdx _

/-- Any index of a list is a member (via `getD` inside the length). -/
theorem getD_mem_of_lt {l : List Word} {j : Nat} (h : j < l.length) : l.getD j [] ∈ l := by
  rw [List.getD_eq_getElem l [] h]
  exact List.getElem_mem h

/-- A no-match hypothesis over the full token list transfers to the
40-token recovery window sliced from it. -/
theorem window_no_match (norm spoken : List Word) (idx : Nat)
    (H : ∀ k w, w ∈ spoken → eqLoose (norm.getD k []) w = false) :
    ∀ k w, w ∈ spoken → eqLoose (((norm.drop idx).take 40).getD k []) w = false := by
  intro k w hw
  by_cases hk : k < ((norm.drop idx).take 40).length
  · have hk40 : k < 40 := lt_of_lt_of_le hk (by
      calc ((norm.drop idx).take 40).length ≤ 40 := by
            exact le_trans (List.length_take_le 40 (norm.drop idx)) (le_refl 40))
    have : ((norm.drop idx).take 40).getD k [] = norm.getD (idx + k) [] := by
      rw [List.getD_eq_getElem _ [] hk]
      rw [List.getElem_take, List.getElem_drop]
      have hlt : idx + k < norm.length := by
        have := hk
        simp only [List.length_take, List.length_drop] at this
        omega
      rw [List.getD_eq_getElem norm [] hlt]
    rw [this]
    exact H (idx + k) w hw
  · have : ((norm.drop idx).take 40).getD k [] = [] :=
      List.getD_eq_default _ _ (by omega)
    rw [this]
    have hempty : norm.getD norm.length [] = [] := List.getD_eq_default _ _ (le_refl _)
    have hfar := H norm.length w hw
    rw [hempty] at hfar
    exact hfar

/-- Under the no-match hypothesis, `attemptStoryRecovery` returns the
cursor unchanged. -/
theorem attemptStoryRecovery_no_match (norm spoken : List Word) (idx : Nat)
    (h3 : spoken.length ≥ 3)
    (H : ∀ k w, w ∈ spoken → eqLoose (norm.getD k []) w = false) :
    attemptStoryRecovery norm idx spoken = idx := by
  have hmin : 0 < min 3 spoken.length := lt_min_iff.mpr ⟨by norm_num, by omega⟩
  have hnone := recoverSearch_no_match ((norm.drop idx).take 40) spoken (min 3 spoken.length)
    hmin (window_no_match norm spoken idx H) (fun j hj => getD_mem_of_lt hj) 0
  simp only [attemptStoryRecovery, hnone]

/-- C3 (amended): for every spoken batch of at least 3 words none of whose
words loosely matches any story token (per `eqLoose`), one call to
`advanceStoryWithTranscript` gains nothing from recovery —
`attemptStoryRecovery` returns the cursor unchanged — and the sequential
scan advances the cursor only across empty separator tokens and stop-word
tokens: every position between the old and new cursor holds an empty token
or a scan stop-word.  (The original claim, that the cursor does not move at
all, is refuted by the stop-word skip: see the counterexample.) -/
theorem advanceStory_no_match_amended (st : StoryState) (text : List Char)
    (h3 : (toSpoken text).length ≥ 3)
    (H : ∀ k w, w ∈ toSpoken text → eqLoose (st.storyNorm.getD k []) w = false) :
    attemptStoryRecovery st.storyNorm st.storyIndex (toSpoken text) = st.storyIndex ∧
    ∀ k, st.storyIndex ≤ k → k < (advanceStoryWithTranscript st text).storyIndex →
      (st.storyNorm.getD k [] = [] ∨ isScanStopWord (st.storyNorm.getD k []) = true) := by
  have hrec : attemptStoryRecovery st.storyNorm st.storyIndex (toSpoken text) = st.storyIndex :=
    attemptStoryRecovery_no_match st.storyNorm (toSpoken text) st.storyIndex h3 H
  obtain ⟨hs1, hs2⟩ := seqScan_no_match st.storyNorm (toSpoken text) st.storyIndex 0 H
  refine ⟨hrec, fun k hk1 hk2 => ?_⟩
  by_cases h0 : ¬ st.storyActive ∨ text = []
  · simp only [advanceStoryWithTranscript, if_pos h0] at hk2
    omega
  · by_cases h1 : toSpoken text = []
    · simp only [advanceStoryWithTranscript, if_neg h0, if_pos h1] at hk2
      omega
    · simp only [advanceStoryWithTranscript, if_neg h0, if_neg h1] at hk2
      have hz : ((0 : Nat) = 0 ∧ (toSpoken text).length ≥ 3) := ⟨rfl, h3⟩
      rw [hs1, hrec] at hk2
      rw [if_pos hz] at hk2
      rw [if_neg (lt_irrefl st.storyIndex)] at hk2
      by_cases h2 : (seqScan st.storyNorm (toSpoken text) st.storyIndex 0).1 > st.storyIndex
      · rw [if_pos h2] at hk2
        exact hs2 k hk1 hk2
      · rw [if_neg h2] at hk2
        have hk2' : k < st.storyIndex := hk2
        omega

/-- Build the unbounded no-match hypothesis from finitely checkable facts:
no batch word is empty, and no in-range story token loosely matches a
batch word.  (Out-of-range `getD` positions give the empty token, which
loosely matches only the empty word.) -/
theorem no_match_of_bounded (norm spoken : List Word)
    (Hne : ∀ w ∈ spoken, w ≠ [])
    (Hm : ∀ k, k < norm.length → ∀ w ∈ spoken, eqLoose (norm.getD k []) w = false) :
    ∀ k w, w ∈ spoken → eqLoose (norm.getD k []) w = false := by
  intro k w hw
  by_cases hk : k < norm.length
  · exact Hm k hk w hw
  · rw [List.getD_eq_default _ _ (by omega)]
    unfold eqLoose
    rw [if_pos (Or.inl rfl)]
    exact decide_eq_false (fun h => Hne w hw h.symm)

/-- The story token list of the two-word narrative "the wolf" after
tokenization and normalization: word, separator (normalized to the empty
token), word. -/
def c3Norm : List Word := ["the".data, [], "wolf".data]

/-- The opened story state for the `c3Norm` narrative, cursor at 0. -/
def c3State : StoryState := ⟨true, c3Norm, 0, []⟩

/-- C3 counterexample: the spoken batch "zebra quark flib" has 3 words and
no story token in the 40-token lookahead loosely matches any of them (so
certainly no run matches a prefix of the batch), yet one call to
`advanceStoryWithTranscript` moves the cursor from 0 to 2: the sequential
scan's stop-word skip advanced past "the" and the empty separator token
even though nothing matched.  This refutes "the cursor is left unchanged —
no advancement of any kind". -/
theorem advanceStory_stopword_advance_cex :
    (toSpoken "zebra quark flib".data).length ≥ 3 ∧
    (∀ k, k < 40 → ∀ w ∈ toSpoken "zebra quark flib".data,
        eqLoose (c3Norm.getD k []) w = false) ∧
    (advanceStoryWithTranscript c3State "zebra quark flib".data).storyIndex = 2 := by
  decide

/-- Witness for the amended C3 theorem at the concrete narrative "the wolf"
and the concrete batch "zebra quark flib". -/
theorem advanceStory_no_match_amended_witness :
    attemptStoryRecovery c3State.storyNorm c3State.storyIndex
        (toSpoken "zebra quark flib".data) = c3State.storyIndex ∧
    ∀ k, c3State.storyIndex ≤ k →
      k < (advanceStoryWithTranscript c3State "zebra quark flib".data).storyIndex →
      (c3State.storyNorm.getD k [] = [] ∨
        isScanStopWord (c3State.storyNorm.getD k []) = true) :=
  advanceStory_no_match_amended c3State "zebra quark flib".data (by decide)
    (no_match_of_bounded c3Norm (toSpoken "zebra quark flib".data)
      (by decide) (by decide))

/-! ## Playback Orchestrator state (`CueAI` class fields) -/

/-- One entry of the loaded sound catalog (`{id, type, tags, src, loop}`;
the tags play no role in the verified functions and are omitted). -/
structure CatalogSound where
  id : Word
  type : Word
  src : Word
  loop : Bool
  deriving Repr, DecidableEq

/-- The record stored in `this.currentMusic` by `playMusicElement`:
`{ _howl, name, type, volume }` (the Howler handle itself carries no
state the claims depend on). -/
structure CurrentMusic where
  name : Word
  type : Word
  volume : ℚ
  deriving Repr, DecidableEq

/-- The record stored in the `activeSounds` map by `playSFXBuffer`:
`{ _howl, soundId, name, originalVolume, type: 'sfx', startTime }`.
Every entry of the map is created by `playSFXBuffer` and has type `'sfx'`. -/
structure ActiveSfx where
  name : Word
  originalVolume : ℚ
  startTime : Nat
  deriving Repr, DecidableEq

/-- A backend music decision `{ id, action, volume }` with
`action ∈ {play_or_continue, change}` (no other field exists — in
particular there is no force-change flag in the decision shape). -/
structure MusicDecision where
  id : Word
  action : Word
  volume : ℚ
  deriving Repr, DecidableEq

/-- A backend SFX decision `{ id, when, volume }` (the `when` field is
not read by `playSoundEffectById`). -/
structure SfxDecision where
  id : Word
  volume : ℚ
  deriving Repr, DecidableEq

/-- The mutable fields of the `CueAI` object touched by the verified
music/SFX/preload functions. -/
structure GameState where
  musicEnabled : Bool
  sfxEnabled : Bool
  soundCatalog : List CatalogSound
  currentMusic : Option CurrentMusic
  activeSounds : List ActiveSfx
  maxSimultaneousSounds : Nat
  sfxCooldowns : List (Word × Nat)
  sfxCooldownMs : Nat
  moodBias : ℚ
  musicLevel : ℚ
  sfxLevel : ℚ
  preloadVersion : Nat
  soundCache : List (Word × Word)
  activeBuffers : List Word
  recentlyPlayed : List Word
  deriving Repr, DecidableEq

/-- Binary minimum on ℚ, written out so the kernel can evaluate it. -/
def rmin (a b : ℚ) : ℚ := if a ≤ b then a else b

/-- Binary maximum on ℚ, written out so the kernel can evaluate it. -/
def rmax (a b : ℚ) : ℚ := if a ≤ b then b else a

/-- Clamp to the unit interval: `Math.max(0, Math.min(1, x))`. -/
def clamp01 (x : ℚ) : ℚ := rmax 0 (rmin 1 x)

/-- The `dataset` property read by `updateMusicById`'s
`this.currentMusic.dataset?.id` guard.  `playMusicElement` stores a plain
`{ _howl, name, type, volume }` object in `currentMusic` — it has no
`dataset` property, so the optional chain always yields `undefined`. -/
def currentMusicDatasetId (_ : CurrentMusic) : Option Word := none

/-- Evaluation of `this.currentMusic && this.currentMusic.dataset?.id ===
musicData.id` (within the conjunction of `updateMusicById`'s
play-or-continue guard). -/
def datasetIdMatches (cm : Option CurrentMusic) (id : Word) : Bool :=
  match cm with
  | some m => currentMusicDatasetId m = some id
  | none => false

/-- Model of `playMusicElement(url, options)` on the orchestrator state:
the old track is faded out, stopped and released, and `currentMusic` is
replaced by the record for the new track (the cross-fade changes only
handle-internal gain, not this state). -/
def playMusicElement (st : GameState) (name : Word) (vol : ℚ) : GameState :=
  { st with currentMusic := some ⟨name, "music".data, vol⟩ }

/-- Model of `updateMusicById(musicData)` from `game.js`: skip when music
is disabled; drop decisions whose id is not in the catalog; skip when the
action is `play_or_continue` and the current track's `dataset?.id` equals
the decision id (a guard that never fires for Howler-created records);
otherwise compute the mood-biased volume
`clamp01((volume || 0.5) × (0.85 + moodBias × 0.3) × musicLevel)` and play
the track via `playAudio` → `playMusicElement`.  (The URL construction and
stinger scheduling touch no state modelled here.) -/
def updateMusicById (st : GameState) (d : MusicDecision) : GameState :=
  if ¬ st.musicEnabled then st
  else
    match st.soundCatalog.find? (fun s => s.id = d.id) with
    | none => st
    | some sound =>
        if d.action = "play_or_continue".data ∧ datasetIdMatches st.currentMusic d.id then st
        else
          playMusicElement st sound.id
            (clamp01 ((if d.volume = 0 then 1/2 else d.volume) *
              (85/100 + st.moodBias * (3/10)) * st.musicLevel))

/-- Model of `playSFXBuffer(url, options)` on the orchestrator state: duck
music (gain envelope only), create the Howl, start it, and insert the new
active-sound entry `{name, originalVolume, type:'sfx', startTime}` into
`activeSounds`.  `tStart` is the `Date.now()` sample taken for `startTime`. -/
def playSFXBuffer (st : GameState) (name : Word) (vol : ℚ) (tStart : Nat) : GameState :=
  { st with activeSounds := ⟨name, clamp01 vol, tStart⟩ :: st.activeSounds }

/-- Whitespace-run collapse for `q.replace(/\s+/g,' ')`: every maximal run
of whitespace becomes a single space. -/
def collapseWsAux : List Char → Bool → List Char
  | [], _ => []
  | c :: cs, prevWs =>
    if c.isWhitespace then
      if prevWs then collapseWsAux cs true
      else ' ' :: collapseWsAux cs true
    else c :: collapseWsAux cs false

/-- Model of `q.replace(/\s+/g,' ').trim()` — the fallback cooldown bucket
normalization. -/
def normalizeSpaces (q : Word) : Word :=
  ((collapseWsAux q false).dropWhile Char.isWhitespace).reverse.dropWhile Char.isWhitespace
    |>.reverse

/-- Substring containment (`q.includes(sub)`), needle first. -/
def hasInfix (sub : Word) : Word → Bool
  | [] => sub = []
  | c :: cs => sub.isPrefixOf (c :: cs) || hasInfix sub cs

/-- Model of `getSfxBucket(query)` from `game.js`: lowercase the query and
bucket it by substring membership, falling back to the whitespace-normalized
query as its own bucket. -/
def getSfxBucket (query : Word) : Word :=
  let q := query.map Char.toLower
  if hasInfix "door".data q then "door".data
  else if hasInfix "footstep".data q then "footsteps".data
  else if hasInfix "whoosh".data q || hasInfix "wind".data q then "wind".data
  else if hasInfix "wolf".data q && hasInfix "howl".data q then "wolf-howl".data
  else if hasInfix "jingle".data q || hasInfix "bell".data q then "bells".data
  else if hasInfix "thunder".data q then "thunder".data
  else if hasInfix "creak".data q then "creak".data
  else if hasInfix "knock".data q then "knock".data
  else normalizeSpaces q

/-- Model of `playSoundEffectById(sfxData)` from `game.js`.  Guards in
source order: SFX enabled; simultaneous-sound limit; catalog lookup;
cooldown-bucket gate (`now < nextAllowed` skips without any state change).
On success `playAudio` → `playSFXBuffer` inserts the active sound, and the
bucket's next-allowed time is set to `Date.now() + sfxCooldownMs` only when
playback actually started.  `now` is the `Date.now()` sample of the
cooldown check, `tStart` the `startTime` sample inside `playSFXBuffer`,
`tAfter` the sample taken for the cooldown write after `playAudio`
resolves, and `playOk` says whether `playAudio` returned a truthy handle.
Returns the new state and whether a play started. -/
def playSoundEffectById (st : GameState) (d : SfxDecision) (now tStart tAfter : Nat)
    (playOk : Bool) : GameState × Bool :=
  if ¬ st.sfxEnabled then (st, false)
  else if st.activeSounds.length ≥ st.maxSimultaneousSounds then (st, false)
  else
    match st.soundCatalog.find? (fun s => s.id = d.id) with
    | none => (st, false)
    | some sound =>
        let bucket := getSfxBucket d.id
        if now < (st.sfxCooldowns.lookup bucket).getD 0 then (st, false)
        else
          if playOk then
            ({ playSFXBuffer st sound.id
                  (clamp01 ((if d.volume = 0 then 7/10 else d.volume) * st.sfxLevel)) tStart with
                sfxCooldowns := (bucket, tAfter + st.sfxCooldownMs) :: st.sfxCooldowns }, true)
          else (st, false)

/-- A concrete catalog used by the concrete-input theorems: three music
tracks of different moods and one door SFX. -/
def demoCatalog : List CatalogSound :=
  [⟨"calm-1".data, "music".data, "/music/calm1.mp3".data, true⟩,
   ⟨"peace-1".data, "music".data, "/music/peace1.mp3".data, true⟩,
   ⟨"epic-1".data, "music".data, "/music/epic1.mp3".data, true⟩,
   ⟨"door-creak-01".data, "sfx".data, "/sfx/door1.mp3".data, false⟩]

/-- A concrete orchestrator state with the constructor defaults of
`game.js` (`maxSimultaneousSounds = 3`, `sfxCooldownMs = 3500`,
`musicLevel = 0.5`, `sfxLevel = 0.9`, `moodBias = 0.5`), both toggles on,
nothing playing, and the demo catalog loaded. -/
def baseState : GameState where
  musicEnabled := true
  sfxEnabled := true
  soundCatalog := demoCatalog
  currentMusic := none
  activeSounds := []
  maxSimultaneousSounds := 3
  sfxCooldowns := []
  sfxCooldownMs := 3500
  moodBias := 1/2
  musicLevel := 1/2
  sfxLevel := 9/10
  preloadVersion := 0
  soundCache := []
  activeBuffers := []
  recentlyPlayed := []

/-! ## C2: the Music Director has no elapsed-time threshold -/

/-- The play-or-continue guard of `updateMusicById` can never hold,
because Howler-created `currentMusic` records have no `dataset`. -/
theorem datasetIdMatches_false (cm : Option CurrentMusic) (id : Word) :
    datasetIdMatches cm id = false := by
  cases cm with
  | none => rfl
  | some m => simp [datasetIdMatches, currentMusicDatasetId]

/-- C2 (amended): `updateMusicById` applies every music decision with a
catalog-known id immediately: it consults no clock, no elapsed-time
threshold and no context-compatibility relation (and the decision shape
`{id, action, volume}` has no force-change flag), so whenever music is
enabled and the id resolves, the current track is replaced by the
decision's track — regardless of how recently the previous change
happened.  The only skip conditions are disabled music, an unknown id,
and the dead same-`dataset?.id` play-or-continue guard. -/
theorem updateMusicById_no_threshold (st : GameState) (d : MusicDecision)
    (sound : CatalogSound)
    (hen : st.musicEnabled = true)
    (hfind : st.soundCatalog.find? (fun s => s.id = d.id) = some sound) :
    (updateMusicById st d).currentMusic =
      some ⟨sound.id, "music".data,
        clamp01 ((if d.volume = 0 then 1/2 else d.volume) *
          (85/100 + st.moodBias * (3/10)) * st.musicLevel)⟩ := by
  have hguard : ¬ (d.action = "play_or_continue".data ∧
      datasetIdMatches st.currentMusic d.id = true) := by
    rintro ⟨-, h2⟩
    rw [datasetIdMatches_false] at h2
    exact Bool.false_ne_true h2
  unfold updateMusicById
  simp only [hfind]
  rw [if_neg (by simp [hen]), if_neg hguard]
  rfl

/-- C2 counterexample for the claim as stated: starting from the default
state, a first decision switches to the "peaceful" track and an
immediately following incompatible decision (different track, `change`
action, no force flag — the decision shape has none) switches again to the
"epic" track.  Since `updateMusicById` reads no clock, this models the
calm→peaceful→epic sequence within any 10-second window: the second
transition is *not* blocked by a 30-second threshold — no such threshold
exists in the code. -/
theorem updateMusicById_second_transition_cex :
    ((updateMusicById baseState ⟨"peace-1".data, "change".data, 1/2⟩).currentMusic.map
        CurrentMusic.name) = some "peace-1".data ∧
    ((updateMusicById (updateMusicById baseState ⟨"peace-1".data, "change".data, 1/2⟩)
        ⟨"epic-1".data, "change".data, 1/2⟩).currentMusic.map CurrentMusic.name) =
      some "epic-1".data := by
  decide

/-- Witness for the amended C2 theorem at a concrete enabled state and
catalog-known id. -/
theorem updateMusicById_no_threshold_witness :
    (updateMusicById baseState ⟨"epic-1".data, "change".data, 1/2⟩).currentMusic =
      some ⟨"epic-1".data, "music".data,
        clamp01 ((if (1/2 : ℚ) = 0 then 1/2 else 1/2) *
          (85/100 + baseState.moodBias * (3/10)) * baseState.musicLevel)⟩ :=
  updateMusicById_no_threshold baseState ⟨"epic-1".data, "change".data, 1/2⟩
    ⟨"epic-1".data, "music".data, "/music/epic1.mp3".data, true⟩ rfl (by decide)

/-! ## C4: cooldown-bucket suppression of near-duplicate triggers -/

/-- C4: if a trigger request successfully starts playback (so its bucket's
next-allowed time is set to its completion time plus the cooldown window),
then any second request mapping to the same bucket that is processed
within the cooldown window (default 3500 ms) of the first is skipped:
no playback starts, the state — in particular the bucket's next-allowed
timestamp and the active sounds — is unchanged, so exactly one play
occurs.  `t1 ≤ t1'` says the clock does not go backwards between the
first request's cooldown check and its cooldown write. -/
theorem playSoundEffectById_skip (st : GameState) (d : SfxDecision) (now ts ta : Nat)
    (ok : Bool)
    (hcool : now < (st.sfxCooldowns.lookup (getSfxBucket d.id)).getD 0) :
    playSoundEffectById st d now ts ta ok = (st, false) := by
  unfold playSoundEffectById
  by_cases h1 : ¬ st.sfxEnabled = true
  · rw [if_pos h1]
  · rw [if_neg h1]
    by_cases h2 : st.activeSounds.length ≥ st.maxSimultaneousSounds
    · rw [if_pos h2]
    · rw [if_neg h2]
      cases hfind : st.soundCatalog.find? (fun s => s.id = d.id) with
      | none => rfl
      | some sound =>
          simp only
          rw [if_pos hcool]

/-- C4: if a trigger request successfully starts playback (setting its
bucket's next-allowed time to completion time plus the cooldown window),
then any second request mapping to the same bucket that is processed
within the cooldown window (default 3500 ms) of the first is skipped:
no playback starts and the state — in particular the bucket's next-allowed
timestamp and the active sounds — is unchanged, so exactly one play
occurs.  `t1 ≤ t1'` says the clock does not go backwards between the
first request's cooldown check and its cooldown write. -/
theorem sfxCooldown_second_trigger_skipped (st st1 : GameState) (d1 d2 : SfxDecision)
    (t1 ts1 t1' t2 ts2 t2' : Nat) (ok2 : Bool)
    (hfirst : playSoundEffectById st d1 t1 ts1 t1' true = (st1, true))
    (hbucket : getSfxBucket d2.id = getSfxBucket d1.id)
    (hmono : t1 ≤ t1')
    (hwin : t2 < t1 + st.sfxCooldownMs) :
    playSoundEffectById st1 d2 t2 ts2 t2' ok2 = (st1, false) := by
  unfold playSoundEffectById at hfirst
  by_cases h1 : st.sfxEnabled = true
  · rw [if_neg (not_not_intro h1)] at hfirst
    by_cases h2 : st.activeSounds.length ≥ st.maxSimultaneousSounds
    · rw [if_pos h2] at hfirst
      exact absurd (congrArg Prod.snd hfirst) (by simp)
    · rw [if_neg h2] at hfirst
      cases hfind : st.soundCatalog.find? (fun s => s.id = d1.id) with
      | none =>
          rw [hfind] at hfirst
          exact absurd (congrArg Prod.snd hfirst) (by simp)
      | some sound =>
          rw [hfind] at hfirst
          simp only at hfirst
          by_cases h3 : t1 < (st.sfxCooldowns.lookup (getSfxBucket d1.id)).getD 0
          · rw [if_pos h3] at hfirst
            exact absurd (congrArg Prod.snd hfirst) (by simp)
          · rw [if_neg h3, if_pos trivial] at hfirst
            have hcd : st1.sfxCooldowns =
                (getSfxBucket d1.id, t1' + st.sfxCooldownMs) :: st.sfxCooldowns := by
              have h := congrArg (fun p => (Prod.fst p).sfxCooldowns) hfirst
              simpa using h.symm
            have hcool : t2 < (st1.sfxCooldowns.lookup (getSfxBucket d2.id)).getD 0 := by
              rw [hcd, hbucket]
              simp only [List.lookup, beq_self_eq_true, Option.getD_some]
              omega
            exact playSoundEffectById_skip st1 d2 t2 ts2 t2' ok2 hcool
  · rw [if_pos (by simp [h1])] at hfirst
    exact absurd (congrArg Prod.snd hfirst) (by simp)

/-- The door-bucket SFX decision used by the concrete C4 instance. -/
def c4Decision : SfxDecision := ⟨"door-creak-01".data, 7/10⟩

/-- The state after the first door trigger played successfully at time 50:
one active sound and the door bucket cooling down until 3550. -/
def c4AfterFirst : GameState :=
  { baseState with
      activeSounds := [⟨"door-creak-01".data, 63/100, 5⟩],
      sfxCooldowns := [("door".data, 3550)] }

/-- Witness for C4: first door trigger at t=0 plays; a second door trigger
at t=1000 (within the 3500 ms window) is skipped with no state change. -/
theorem sfxCooldown_second_trigger_skipped_witness :
    playSoundEffectById c4AfterFirst c4Decision 1000 1001 1002 true = (c4AfterFirst, false) :=
  sfxCooldown_second_trigger_skipped baseState c4AfterFirst c4Decision c4Decision
    0 5 50 1000 1001 1002 true (by with_unfolding_all rfl) rfl (by decide) (by decide)

/-! ## C9: unknown ids are dropped, never played -/

/-- The decision object assembled by the backend `/analyze` route before
id validation: `{scene, music: {id, action, volume} | null, sfx: [...]}`
(the `scene` string plays no role in validation). -/
structure ServerDecision where
  music : Option MusicDecision
  sfx : List SfxDecision
  deriving Repr, DecidableEq

/-- Model of the id-validation step of `app.post('/analyze')` in the
backend: `if (decision.music?.id && !soundCatalog.find(...)) decision.music
= null;` and `decision.sfx = (decision.sfx || []).filter(...)`.  A music
decision with a falsy (empty) id is left untouched by the music check. -/
def validateDecisionIds (catalog : List CatalogSound) (dec : ServerDecision) : ServerDecision :=
  { music :=
      match dec.music with
      | some m =>
          if m.id ≠ [] ∧ (catalog.find? (fun s => s.id = m.id)).isNone then none
          else some m
      | none => none,
    sfx := dec.sfx.filter (fun s => (catalog.find? (fun c => c.id = s.id)).isSome) }

/-- C9: unknown ids are never played.  On the client, `updateMusicById`
drops any music decision whose id has no catalog entry (state unchanged,
nothing played) and `playSoundEffectById` drops any SFX decision whose id
has no catalog entry (state unchanged, no play started).  On the server,
after the `/analyze` validation filter every surviving SFX id and every
surviving non-empty music id occurs in the catalog. -/
theorem unknown_ids_never_played :
    (∀ (st : GameState) (d : MusicDecision),
      st.soundCatalog.find? (fun s => s.id = d.id) = none → updateMusicById st d = st) ∧
    (∀ (st : GameState) (d : SfxDecision) (now ts ta : Nat) (ok : Bool),
      st.soundCatalog.find? (fun s => s.id = d.id) = none →
        playSoundEffectById st d now ts ta ok = (st, false)) ∧
    (∀ (catalog : List CatalogSound) (dec : ServerDecision),
      (∀ s ∈ (validateDecisionIds catalog dec).sfx,
        (catalog.find? (fun c => c.id = s.id)).isSome = true) ∧
      (∀ m, (validateDecisionIds catalog dec).music = some m → m.id ≠ [] →
        (catalog.find? (fun s => s.id = m.id)).isSome = true)) := by
  refine ⟨?_, ?_, ?_⟩
  · intro st d hfind
    unfold updateMusicById
    by_cases h1 : ¬ st.musicEnabled = true
    · rw [if_pos h1]
    · rw [if_neg h1, hfind]
  · intro st d now ts ta ok hfind
    unfold playSoundEffectById
    by_cases h1 : ¬ st.sfxEnabled = true
    · rw [if_pos h1]
    · rw [if_neg h1]
      by_cases h2 : st.activeSounds.length ≥ st.maxSimultaneousSounds
      · rw [if_pos h2]
      · rw [if_neg h2, hfind]
  · intro catalog dec
    constructor
    · intro s hs
      unfold validateDecisionIds at hs
      simp only [List.mem_filter] at hs
      exact hs.2
    · intro m hm hne
      unfold validateDecisionIds at hm
      simp only at hm
      cases hdm : dec.music with
      | none => rw [hdm] at hm; exact absurd hm (by simp)
      | some m0 =>
          rw [hdm] at hm
          dsimp only at hm
          by_cases hcond : m0.id ≠ [] ∧ (catalog.find? (fun s => s.id = m0.id)).isNone
          · rw [if_pos hcond] at hm
            exact absurd hm (by simp)
          · rw [if_neg hcond] at hm
            have hmm : m0 = m := by injection hm
            subst hmm
            rcases not_and_or.mp hcond with h | h
            · exact absurd hne (by simpa using h)
            · simpa [Option.isNone_iff_eq_none, Option.isSome_iff_ne_none] using h

/-- Witness for C9 at concrete inputs: a ghost id is dropped by both
client paths, and a validated catalog-known music id is in the catalog. -/
theorem unknown_ids_never_played_witness :
    (updateMusicById baseState ⟨"ghost-7".data, "change".data, 1/2⟩ = baseState) ∧
    (playSoundEffectById baseState ⟨"ghost-7".data, 1/2⟩ 0 0 0 true = (baseState, false)) ∧
    ((demoCatalog.find? (fun s =>
        s.id = (⟨"peace-1".data, "change".data, 1/2⟩ : MusicDecision).id)).isSome = true) :=
  ⟨unknown_ids_never_played.1 baseState ⟨"ghost-7".data, "change".data, 1/2⟩ (by decide),
   unknown_ids_never_played.2.1 baseState ⟨"ghost-7".data, 1/2⟩ 0 0 0 true (by decide),
   (unknown_ids_never_played.2.2 demoCatalog
      ⟨some ⟨"peace-1".data, "change".data, 1/2⟩, []⟩).2
     ⟨"peace-1".data, "change".data, 1/2⟩ (by with_unfolding_all rfl) (by decide)⟩

/-! ## C6: at most one music; the SFX concurrency bound -/

/-- The cache key `sfx:${q}` used by the sound-resolution cache. -/
def sfxCacheKey (q : Word) : Word := "sfx:".data ++ q

/-- State effect of `await searchAudio(q, 'sfx')`: `searchAudio` writes
only the `(type, query) → url` session cache and the recently-played set
when a result is found (lines 1913 and 2148–2158 of `game.js`); it touches
neither `activeSounds` nor `currentMusic` and starts no playback.  The url
found (or null) is supplied by the environment. -/
def searchAudioEffect (st : GameState) (tkey : Word) (found : Option Word) : GameState :=
  match found with
  | some url =>
      { st with soundCache := (tkey, url) :: st.soundCache,
                recentlyPlayed := url :: st.recentlyPlayed }
  | none => st

/-- The fully-ready cache check at the top of each preload task:
`soundCache.has(cacheKey)` with a truthy url already decoded into
`activeBuffers`.  A cached-but-undecoded url falls through to the search. -/
def preloadCacheReady (st : GameState) (q : Word) : Bool :=
  match st.soundCache.lookup (sfxCacheKey q) with
  | some url => url ≠ [] && st.activeBuffers.contains url
  | none => false

/-- Model of one task created by `preloadSfxForCurrentMode(versionToken)`
for query `q`: abort if the epoch moved on (`versionToken !==
this.preloadVersion`); skip if the cache is fully ready; otherwise resolve
the query (cache-only effects), and if a url was found and is not yet
decoded, fetch and decode it into the read-only buffer cache (`decodeOk`
false models the CORS/decode failure swallowed by the catch).  The state
passed in is whatever the state is when the task runs — in particular the
epoch may have been bumped any number of times since submission. -/
def preloadTaskRun (st : GameState) (v : Nat) (q : Word) (found : Option Word)
    (decodeOk : Bool) : GameState :=
  if v ≠ st.preloadVersion then st
  else if preloadCacheReady st q then st
  else
    match found with
    | none => searchAudioEffect st (sfxCacheKey q) none
    | some url =>
        let st1 := searchAudioEffect st (sfxCacheKey q) (some url)
        if st1.activeBuffers.contains url then st1
        else if decodeOk then { st1 with activeBuffers := url :: st1.activeBuffers }
        else st1

/-- C5: a preload task never mutates the ActiveSound collection and never
starts playback — its only writes are to the URL/buffer caches — and this
holds for the state at any point of any interleaving of epoch bumps with
task steps, stale or not; moreover a task that observes a stale epoch at
entry does nothing at all.  In particular a task whose epoch was bumped by
`selectMode` between submission and execution has no playback side effect. -/
theorem preload_stale_never_mutates_playback (st : GameState) (v : Nat) (q : Word)
    (found : Option Word) (decodeOk : Bool) :
    (preloadTaskRun st v q found decodeOk).activeSounds = st.activeSounds ∧
    (preloadTaskRun st v q found decodeOk).currentMusic = st.currentMusic ∧
    (v ≠ st.preloadVersion → preloadTaskRun st v q found decodeOk = st) := by
  unfold preloadTaskRun
  by_cases h1 : v ≠ st.preloadVersion
  · rw [if_pos h1]
    exact ⟨rfl, rfl, fun _ => rfl⟩
  · rw [if_neg h1]
    refine ⟨?_, ?_, fun hc => absurd hc h1⟩ <;>
      (by_cases h2 : preloadCacheReady st q = true
       · rw [if_pos h2]
       · rw [if_neg h2]
         cases found with
         | none => rfl
         | some url =>
             dsimp only
             by_cases h3 : (searchAudioEffect st (sfxCacheKey q) (some url)).activeBuffers.contains
                 url = true
             · rw [if_pos h3]
               simp [searchAudioEffect]
             · rw [if_neg h3]
               cases decodeOk with
               | false =>
                   rw [if_neg (by simp)]
                   simp [searchAudioEffect]
               | true =>
                   rw [if_pos rfl]
                   simp [searchAudioEffect])

/-- Witness for C5 at a concrete state (`preloadVersion = 0`) and a task
submitted under the already-superseded epoch 5. -/
theorem preload_stale_never_mutates_playback_witness :
    (preloadTaskRun baseState 5 "dog bark".data (some "https://cdn/a.mp3".data)
        true).activeSounds = baseState.activeSounds ∧
    (preloadTaskRun baseState 5 "dog bark".data (some "https://cdn/a.mp3".data)
        true).currentMusic = baseState.currentMusic ∧
    preloadTaskRun baseState 5 "dog bark".data (some "https://cdn/a.mp3".data) true =
      baseState :=
  have h := preload_stale_never_mutates_playback baseState 5 "dog bark".data
    (some "https://cdn/a.mp3".data) true
  ⟨h.1, h.2.1, h.2.2 (by decide)⟩

/-! ## C7/C8: instant keyword detection (`checkInstantKeywords`) -/

/-- One value of the static `instantKeywords` trigger table:
`{ query, volume }`. -/
structure InstantConfig where
  query : Word
  volume : ℚ
  deriving Repr, DecidableEq

/-- The static `instantKeywords` table from the `CueAI` constructor, in
source (insertion) order. -/
def instantKeywords : List (Word × InstantConfig) :=
  [("bang".data, ⟨"gunshot explosion".data, 9/10⟩),
   ("crash".data, ⟨"crash metal".data, 8/10⟩),
   ("boom".data, ⟨"explosion boom".data, 9/10⟩),
   ("thunder".data, ⟨"thunder storm".data, 8/10⟩),
   ("scream".data, ⟨"scream horror".data, 7/10⟩),
   ("roar".data, ⟨"monster roar".data, 8/10⟩),
   ("growl".data, ⟨"monster growl".data, 8/10⟩),
   ("snarl".data, ⟨"monster growl".data, 8/10⟩),
   ("ogre".data, ⟨"monster growl".data, 8/10⟩),
   ("troll".data, ⟨"monster growl".data, 8/10⟩),
   ("orc".data, ⟨"monster growl".data, 8/10⟩),
   ("goblin".data, ⟨"monster growl".data, 8/10⟩),
   ("beast".data, ⟨"monster growl".data, 8/10⟩),
   ("slam".data, ⟨"door slam".data, 7/10⟩),
   ("splash".data, ⟨"water splash".data, 6/10⟩),
   ("whoosh".data, ⟨"wind whoosh".data, 6/10⟩),
   ("thud".data, ⟨"heavy thud".data, 7/10⟩),
   ("bark".data, ⟨"dog bark".data, 7/10⟩),
   ("woof".data, ⟨"dog bark".data, 7/10⟩),
   ("meow".data, ⟨"cat meow".data, 6/10⟩),
   ("knock".data, ⟨"door knock".data, 7/10⟩),
   ("footsteps".data, ⟨"footsteps".data, 6/10⟩),
   ("footstep".data, ⟨"footsteps".data, 6/10⟩),
   ("clap".data, ⟨"applause".data, 7/10⟩),
   ("applause".data, ⟨"applause".data, 7/10⟩),
   ("laugh".data, ⟨"laugh".data, 7/10⟩),
   ("giggle".data, ⟨"laugh".data, 6/10⟩),
   ("creak".data, ⟨"door creak".data, 6/10⟩),
   ("whisper".data, ⟨"whisper breath".data, 5/10⟩),
   ("heartbeat".data, ⟨"heartbeat".data, 6/10⟩),
   ("jingle".data, ⟨"jingle bells".data, 7/10⟩),
   ("sleigh".data, ⟨"sleigh bells".data, 7/10⟩),
   ("hohoho".data, ⟨"santa laugh ho ho".data, 8/10⟩),
   ("cackle".data, ⟨"witch cackle laugh".data, 7/10⟩),
   ("boo".data, ⟨"ghost boo".data, 6/10⟩),
   ("howl".data, ⟨"wolf howl".data, 7/10⟩)]

/-- A regex word character (`\w` = `[A-Za-z0-9_]`), for `\b` boundaries. -/
def isWordChar (c : Char) : Bool :=
  (decide (Char.ofNat 97 ≤ c) && decide (c ≤ Char.ofNat 122)) ||
  (decide (Char.ofNat 65 ≤ c) && decide (c ≤ Char.ofNat 90)) ||
  (decide (Char.ofNat 48 ≤ c) && decide (c ≤ Char.ofNat 57)) ||
  c = '_'

/-- The regex `\b${keyword}\b` matches at offset `i`: the keyword occurs
there, preceded and followed by a word boundary (start/end of string or a
non-word character; the default `' '` of the out-of-range `getD` is a
non-word character, giving the end-of-string boundary). -/
def wholeWordAt (text kw : List Char) (i : Nat) : Bool :=
  ((text.drop i).take kw.length = kw) &&
  (decide (i = 0) || !(isWordChar (text.getD (i - 1) ' '))) &&
  !(isWordChar (text.getD (i + kw.length) ' '))

/-- The regex test `\b${keyword}\b`.test(text): some offset matches. -/
def containsWholeWord (text kw : List Char) : Bool :=
  (List.range (text.length + 1)).any (fun i => wholeWordAt text kw i)

/-- The keyword selection inside `checkInstantKeywords(text)` from
`game.js`: bail out unless an audio API key is configured, the text is
non-empty and SFX are enabled; lowercase the text; return the config of
the first table entry whose keyword matches on whole-word boundaries
("Only trigger one sound per check to avoid chaos").
(In the source this selected config is not returned: it is dispatched —
see `checkInstantKeywordsCalls`.) -/
def checkInstantKeywordsMatch (hasAnyKey sfxEnabled : Bool) (text : List Char) :
    Option InstantConfig :=
  if ¬ hasAnyKey = true ∨ text = [] ∨ ¬ sfxEnabled = true then none
  else
    ((instantKeywords.find? (fun e => containsWholeWord (text.map Char.toLower) e.1)).map
      (fun e => e.2))

/-- The argument of `playSoundEffect` as built by `playInstantSound`:
`{ query: config.query, priority: 10, volume: config.volume }`. -/
structure SfxRequest where
  query : Word
  priority : Nat
  volume : ℚ
  deriving Repr, DecidableEq

/-- The dispatches performed by one invocation of
`checkInstantKeywords(text)`: for the first matching keyword it calls
`this.playInstantSound(config)`, which forwards
`{query, priority: 10, volume}` to the unified `playSoundEffect` path
("Reuse unified SFX path to benefit from cooldown logic"), then breaks. -/
def checkInstantKeywordsCalls (hasAnyKey sfxEnabled : Bool) (text : List Char) :
    List SfxRequest :=
  match checkInstantKeywordsMatch hasAnyKey sfxEnabled text with
  | some cfg => [⟨cfg.query, 10, cfg.volume⟩]
  | none => []

/-- C7 counterexample: the table does contain `bark → {query: "dog bark"}`,
yet the input "the dog barked suddenly" produces *no* candidate: the
whole-word regex `\bbark\b` does not match inside "barked" (the boundary
fails between `k` and `e`), and no other trigger word occurs.  The claimed
"exactly one CueCandidate with query dog bark" is false at this input. -/
theorem checkInstantKeywords_barked_cex :
    (instantKeywords.lookup "bark".data = some ⟨"dog bark".data, 7/10⟩) ∧
    checkInstantKeywordsMatch true true "the dog barked suddenly".data = none := by
  constructor
  · with_unfolding_all rfl
  · decide

/-- C7 (amended): with the static table, the fragment "the dog barked
suddenly" yields no candidate (whole-word matching rejects "barked"),
while a fragment containing the trigger as a whole word — "the dog bark
suddenly" — yields exactly one dispatched candidate, with query
"dog bark" (and priority 10): matching is case-insensitive on whole-word
boundaries, first match wins. -/
theorem checkInstantKeywords_wholeWord_amended :
    checkInstantKeywordsMatch true true "the dog barked suddenly".data = none ∧
    ((checkInstantKeywordsMatch true true "the dog bark suddenly".data).map
      (fun c => c.query)) = some "dog bark".data ∧
    checkInstantKeywordsCalls true true "the dog bark suddenly".data =
      [⟨"dog bark".data, 10, 7/10⟩] := by
  refine ⟨by decide, by decide, ?_⟩
  with_unfolding_all rfl

/-- C8 counterexample: `checkInstantKeywords` does not merely return its
candidate — on the fragment "a loud bang" it performs a dispatch (a
`playInstantSound` → `playSoundEffect` call), refuting "side effect:
none — candidate is returned, not dispatched". -/
theorem checkInstantKeywords_dispatches_cex :
    checkInstantKeywordsCalls true true "a loud bang".data ≠ [] := by
  decide

/-- C8 (amended): the candidate *selection* of `checkInstantKeywords` is a
pure function of the fragment and the static table, and the gates suppress
everything (no API key, empty text, SFX disabled → no dispatch); at most
one candidate is dispatched per invocation, and every dispatched request
carries a whole-word-matched table entry's query and volume with priority
10 — but the dispatch happens inside the extractor, through
`playInstantSound` → `playSoundEffect` (where the cooldown gate lives),
rather than the candidate being returned to the caller. -/
theorem checkInstantKeywords_dispatch_shape (a s : Bool) (text : List Char) :
    ((¬ a = true ∨ text = [] ∨ ¬ s = true) → checkInstantKeywordsCalls a s text = []) ∧
    (checkInstantKeywordsCalls a s text).length ≤ 1 ∧
    (∀ r ∈ checkInstantKeywordsCalls a s text, ∃ kw cfg,
      (kw, cfg) ∈ instantKeywords ∧
      containsWholeWord (text.map Char.toLower) kw = true ∧
      r = ⟨cfg.query, 10, cfg.volume⟩) := by
  refine ⟨?_, ?_, ?_⟩
  · intro hgate
    unfold checkInstantKeywordsCalls checkInstantKeywordsMatch
    rw [if_pos hgate]
  · unfold checkInstantKeywordsCalls
    cases checkInstantKeywordsMatch a s text with
    | none => exact Nat.zero_le 1
    | some cfg => exact Nat.le_refl 1
  · intro r hr
    unfold checkInstantKeywordsCalls at hr
    cases hm : checkInstantKeywordsMatch a s text with
    | none =>
        rw [hm] at hr
        exact absurd hr (by simp)
    | some cfg =>
        rw [hm] at hr
        have hrc : r = ⟨cfg.query, 10, cfg.volume⟩ := by
          simpa using hr
        unfold checkInstantKeywordsMatch at hm
        by_cases hgate : ¬ a = true ∨ text = [] ∨ ¬ s = true
        · rw [if_pos hgate] at hm
          exact absurd hm (by simp)
        · rw [if_neg hgate] at hm
          rcases Option.map_eq_some'.mp hm with ⟨e, hfind, he⟩
          refine ⟨e.1, e.2, List.mem_of_find?_eq_some hfind, ?_, ?_⟩
          · have := List.find?_some hfind
            simpa using this
          · rw [hrc, he]

/-- Witness for the amended C8 theorem: with no API key configured the
fragment "a loud bang" dispatches nothing, and with keys configured it
dispatches at most one request. -/
theorem checkInstantKeywords_dispatch_shape_witness :
    checkInstantKeywordsCalls false true "a loud bang".data = [] ∧
    (checkInstantKeywordsCalls true true "a loud bang".data).length ≤ 1 :=
  ⟨(checkInstantKeywords_dispatch_shape false true "a loud bang".data).1
      (Or.inl (by decide)),
   (checkInstantKeywords_dispatch_shape true true "a loud bang".data).2.1⟩

end CueAI
